import Mathlib

/-!
Shallow embedding of the chat-session reconciliation core of the
`chat-langchain` frontend (files `src/App.jsx`, `src/components/ChatWindow.jsx`,
`src/components/ChatInput.jsx`, `src/api/chat.js`).

Conventions of the embedding:
* JavaScript strings are Lean `String`s; a value that may be `null`/`undefined`
  is an `Option`.  JS truthiness of a string-or-null value is `strTruthy`
  (`null`/`undefined`/`""` are falsy).
* JS objects keyed by chat id (the `chats` state) are association lists
  `List (String × Chat)` with at most one binding per key; `storeSet`
  mirrors `copy[k] = v` (replace in place, else append in insertion order).
* Timestamps are `Nat`; `Date` construction is an opaque `now` parameter.
* Network calls are environment parameters (`Except`-valued responses); the
  list of issued calls is returned explicitly so call-ordering properties can
  be stated.
-/

namespace ChatApp

/-- JS truthiness of a string-or-null value: `null`/`undefined` and `""` are falsy. -/
def strTruthy : Option String → Bool
  | some s => s != ""
  | none => false

/-- `x || d` for a string-or-null `x` with string default `d`. -/
def strOr (x : Option String) (d : String) : String :=
  match x with
  | some s => if s = "" then d else s
  | none => d

/-- `x || null` for a string-or-null `x`: empty strings collapse to `null`. -/
def strOrNull (x : Option String) : Option String :=
  match x with
  | some s => if s = "" then none else some s
  | none => none

/-- Substring test (JS `String.prototype.includes`). -/
def strIncludes (hay needle : String) : Bool :=
  decide (needle.toList <:+: hay.toList)

/-- File descriptor attached to a message (`{name, size, type}` built in
`handleSendMessage`). -/
structure FileMeta where
  name : String
  size : Nat
  ftype : String
  deriving DecidableEq, Repr

/-- A chat message as kept in the frontend state (union of the fields set by
`handleSendMessage`, `transformMessages` and the preview construction; fields a
given code path leaves `undefined` take the defaults). -/
structure Msg where
  id : String
  role : String
  content : String
  files : List FileMeta := []
  tables : List String := []
  charts : List String := []
  timestamp : Nat := 0
  awaiting_confirmation : Bool := false
  confirmation_summary : Option String := none
  plan_id : Option String := none
  deriving DecidableEq, Repr

/-- A chat session as kept in the `chats` state of `App.jsx`. -/
structure Chat where
  id : String
  server_id : Option String := none
  title : String := ""
  messages : List Msg := []
  preview : Bool := false
  persisted : Bool := false
  createdAt : Nat := 0
  deriving DecidableEq, Repr

/-- The `chats` state: an insertion-ordered object keyed by local chat id. -/
def Store := List (String × Chat)
  deriving DecidableEq, Repr

/-- Property lookup `chats[chatId]`. -/
def storeLookup (k : String) : Store → Option Chat
  | [] => none
  | (k', c) :: rest => if k' = k then some c else storeLookup k rest

/-- Property assignment `copy[k] = v`: replaces the existing binding in place,
otherwise appends (JS object insertion order). -/
def storeSet (k : String) (v : Chat) : Store → Store
  | [] => [(k, v)]
  | (k', c) :: rest =>
      if k' = k then (k', v) :: rest else (k', c) :: storeSet k v rest

/-- Well-formedness of a store: one binding per key (JS objects cannot hold
duplicate keys). -/
def StoreWF (s : Store) : Prop := (s.map Prod.fst).Nodup

theorem storeLookup_storeSet_same (k : String) (v : Chat) (s : Store) :
    storeLookup k (storeSet k v s) = some v := by
  induction s with
  | nil => simp [storeSet, storeLookup]
  | cons hd tl ih =>
      obtain ⟨k', c⟩ := hd
      by_cases h : k' = k <;> simp [storeSet, storeLookup, h, ih]

theorem storeLookup_storeSet_ne (k k' : String) (v : Chat) (s : Store)
    (h : k' ≠ k) : storeLookup k' (storeSet k v s) = storeLookup k' s := by
  induction s with
  | nil => simp [storeSet, storeLookup, Ne.symm h]
  | cons hd tl ih =>
      obtain ⟨k0, c⟩ := hd
      by_cases h0 : k0 = k
      · subst h0
        simp [storeSet, storeLookup, Ne.symm h]
      · simp only [storeSet, if_neg h0]
        by_cases h1 : k0 = k'
        · simp [storeLookup, h1]
        · simp [storeLookup, h1, ih]

theorem storeLookup_eq_none_of_not_mem (k : String) (s : Store)
    (h : k ∉ s.map Prod.fst) : storeLookup k s = none := by
  induction s with
  | nil => rfl
  | cons hd tl ih =>
      obtain ⟨k', c⟩ := hd
      simp only [List.map_cons, List.mem_cons] at h
      push_neg at h
      simp [storeLookup, Ne.symm h.1, ih h.2]

/-! ### Server session listings (`getChats` results) and their mapping
(`loadServerChatsAndEnsureInitial` / `handleDeleteChat` in `App.jsx`) -/

/-- One element of the `getChats()` listing. -/
structure ServerChat where
  id : String
  title : Option String := none
  first_message : Option String := none
  last_message : Option String := none
  last_message_role : Option String := none
  created_at : Option Nat := none
  deriving DecidableEq, Repr

/-- `c.title && !defaultTitles.includes(c.title)` with
`defaultTitles = ['Новый чат', '', 'Чат с ассистентом']`. -/
def useServerTitle (c : ServerChat) : Bool :=
  match c.title with
  | some t => t != "" && !(["Новый чат", "", "Чат с ассистентом"].contains t)
  | none => false

/-- `f.length > 60 ? f.slice(0, 60) + '...' : f` applied to a truthy
`first_message`; falsy `first_message` yields `none`. -/
def titleFromFirst (c : ServerChat) : Option String :=
  match c.first_message with
  | some f => if f = "" then none else
      some (if f.length > 60 then f.take 60 ++ "..." else f)
  | none => none

/-- `c.last_message_role || (c.last_message ? 'assistant' : null)`; the JS
`null` outcome is modelled as `""` (it is never used to build a message,
because a preview message is only built when `last_message` is truthy). -/
def previewRole (c : ServerChat) : String :=
  let fallback := if strTruthy c.last_message then "assistant" else ""
  match c.last_message_role with
  | some r => if r = "" then fallback else r
  | none => fallback

/-- The entry `mapped[c.id]` built for a listed server chat in
`loadServerChatsAndEnsureInitial` (the `handleDeleteChat` refresh builds the
same entry). `now` stands for `new Date()`. -/
def mapServerChat (now : Nat) (c : ServerChat) : Chat :=
  { id := c.id
    server_id := some c.id
    title := if useServerTitle c then strOr c.title "" else strOr (titleFromFirst c) "Новый чат"
    messages :=
      match c.last_message with
      | some lm =>
          if lm = "" then [] else
            [{ id := c.id ++ "-preview", role := previewRole c, content := lm,
               timestamp := c.created_at.getD now }]
      | none => []
    preview := strTruthy c.last_message
    createdAt := c.created_at.getD now
    persisted := true }

/-- The merge in `loadServerChatsAndEnsureInitial`:
`copy = {...prev}; for k of keys(mapped) copy[k] = mapped[k]`. -/
def mergeServerChats (now : Nat) (prev : Store) (cs : List ServerChat) : Store :=
  cs.foldl (fun acc c => storeSet c.id (mapServerChat now c) acc) prev

/-- The store produced by the refresh in `handleDeleteChat`'s catch branch:
`setChats(mapped)` — the previous store is replaced wholesale. -/
def deleteRefreshChats (now : Nat) (cs : List ServerChat) : Store :=
  cs.foldl (fun acc c => storeSet c.id (mapServerChat now c) acc) []

/-! ### `cleanupEmptyLocalChats` and `updateChatMessages` (`App.jsx`) -/

/-- `cleanupEmptyLocalChats`: drop every chat with
`!chat.persisted && (!chat.messages || chat.messages.length === 0) && chatId !== activeChat`.
`active` is the `activeChat` state (`null` allowed). -/
def cleanupEmptyLocalChats (active : Option String) (s : Store) : Store :=
  s.filter fun kv => kv.2.persisted || !kv.2.messages.isEmpty || active == some kv.1

/-- The `metadata` argument of `updateChatMessages`: the fields a caller may
set (`server_id`/`persisted` from `handleSendMessage`, `preview` from the
selection/prefetch paths). `none` means the field is absent from the patch. -/
structure ChatPatch where
  server_id : Option String := none
  persisted : Option Bool := none
  preview : Option Bool := none
  deriving DecidableEq, Repr

/-- Stand-in for `prev[chatId] || {}` when the key is absent: a record whose
fields are all JS-`undefined` (falsy). -/
def undefinedChat : Chat :=
  { id := "", server_id := none, title := "", messages := [], preview := false,
    persisted := false, createdAt := 0 }

/-- `messages[0].content.slice(0, 30) + (messages[0].content.length > 30 ? "..." : "")`. -/
def deriveTitle (content : String) : String :=
  content.take 30 ++ (if content.length > 30 then "..." else "")

/-- `updateChatMessages(chatId, messages, metadata)` from `App.jsx`:
`{...prev[chatId], ...metadata, messages, title: (() => ...)()}` written back
under `chatId`.  The title is recomputed from the first user message only when
the *existing* entry's `server_id` is falsy (transient chat). -/
def updateChatMessages (s : Store) (chatId : String) (msgs : List Msg)
    (p : ChatPatch) : Store :=
  let existing := (storeLookup chatId s).getD undefinedChat
  let newTitle :=
    match msgs with
    | m0 :: _ =>
        if !strTruthy existing.server_id && m0.role == "user" then
          deriveTitle m0.content
        else existing.title
    | [] => existing.title
  let entry : Chat :=
    { existing with
      server_id := match p.server_id with
        | some v => some v
        | none => existing.server_id
      persisted := p.persisted.getD existing.persisted
      preview := p.preview.getD existing.preview
      messages := msgs
      title := newTitle }
  storeSet chatId entry s

/-! ### `sendMessage` error construction (`api/chat.js`) -/

/-- Outcome of `JSON.parse(responseText)` on an error body, abstracted: `detail`
is the `detail` field when present, `stringified` is `JSON.stringify(jsonErr)`. -/
structure ParsedJson where
  detail : Option String := none
  stringified : String := ""
  deriving DecidableEq, Repr

/-- A non-2xx outcome of the `POST .../messages` request: HTTP status, raw body
text, and the result of attempting to parse the body as JSON (`none` when
`JSON.parse` throws). -/
structure HttpFailure where
  status : Nat
  body : String
  parsed : Option ParsedJson := none
  deriving DecidableEq, Repr

/-- `response.status === 404 && responseText.includes('Chat was deleted during processing')`. -/
def isChatDeletedError (status : Nat) (body : String) : Bool :=
  status == 404 && strIncludes body "Chat was deleted during processing"

/-- The `Error` message thrown by `sendMessage` in `api/chat.js` for a non-ok
response. -/
def mkSendError (e : HttpFailure) : String :=
  match e.parsed with
  | some j =>
      if isChatDeletedError e.status e.body then
        "ChatDeletedError: " ++ j.detail.getD "undefined"
      else j.stringified
  | none => "HTTP error! status: " ++ toString e.status ++ " body: " ++ e.body

/-! ### The turn controller `handleSendMessage` (`ChatWindow.jsx`) -/

/-- The `catch` filter in `handleSendMessage`:
`error.message.includes('ChatDeletedError') || error.message.includes('Chat was deleted') || error.message.includes('404')`. -/
def isSilentAbortError (msg : String) : Bool :=
  strIncludes msg "ChatDeletedError" || strIncludes msg "Chat was deleted" ||
    strIncludes msg "404"

/-- The `assistant_message` part of a successful `sendMessage` response (fields
the server may omit are `Option`s). -/
structure AssistantData where
  id : String
  role : String
  content : String
  files : Option (List FileMeta) := none
  tables : Option (List String) := none
  charts : Option (List String) := none
  created_at : Nat := 0
  awaiting_confirmation : Option Bool := none
  confirmation_summary : Option String := none
  plan_id : Option String := none
  deriving DecidableEq, Repr

/-- The assistant `Msg` built from a `sendMessage` response in
`handleSendMessage` (every `|| default` of the source is mirrored). -/
def buildAssistantMsg (a : AssistantData) : Msg :=
  { id := a.id
    role := a.role
    content := a.content
    files := a.files.getD []
    tables := a.tables.getD []
    charts := a.charts.getD []
    timestamp := a.created_at
    awaiting_confirmation := a.awaiting_confirmation.getD false
    confirmation_summary := strOrNull a.confirmation_summary
    plan_id := strOrNull a.plan_id }

/-- The optimistic user `Msg` appended at the start of `handleSendMessage`.
`freshId` is the generated UUID, `now` is `new Date()`. -/
def optimisticUserMsg (freshId : String) (now : Nat) (content : String)
    (files : List FileMeta) : Msg :=
  { id := freshId, role := "user", content := content,
    files := files.map fun f => { name := f.name, size := f.size, ftype := f.ftype },
    timestamp := now }

/-- The synthetic assistant error message appended on a non-silenced failure. -/
def sendErrorMsg (freshId : String) (now : Nat) : Msg :=
  { id := freshId, role := "assistant",
    content := "Извините, произошла ошибка при отправке сообщения. Попробуйте еще раз.",
    files := [], timestamp := now }

/-- An API call issued by the embedded handlers. -/
inductive ApiCall where
  | createChat (title : String)
  | sendMessage (chatId content : String)
  | getChatMessages (chatId : String)
  deriving DecidableEq, Repr

/-- Environment of one `handleSendMessage` run: the responses of the backend
and the client-generated fresh values. -/
structure SendEnv where
  /-- Result of `createChat`: the created chat's `id`, or the HTTP status it
  failed with (its thrown message is then `HTTP error! status: <status>`). -/
  createResp : Except Nat String
  /-- Result of `sendMessage`: assistant payload, or the HTTP failure. -/
  sendResp : Except HttpFailure AssistantData
  userMsgId : String := "u"
  errMsgId : String := "e"
  now : Nat := 0
  deriving Repr

/-- One `onUpdateMessages(chatId, messages, metadata)` callback invocation. -/
structure StoreUpdate where
  chatId : String
  messages : List Msg
  patch : ChatPatch := {}
  deriving DecidableEq, Repr

/-- `handleSendMessage(content, files)` of `ChatWindow.jsx`, run to completion
against environment `env` on the `chat` prop: returns the API calls issued (in
order) and the `onUpdateMessages` invocations (in order).  The `isLoading`
guard, the `!chat.id` sanity check, the lazy `createChat` step, and the
catch-branch filtering are all mirrored from the source. -/
def handleSendMessage (isLoading : Bool) (chat : Chat) (content : String)
    (files : List FileMeta) (env : SendEnv) : List ApiCall × List StoreUpdate :=
  if isLoading then ([], [])
  else
    let userMessage := optimisticUserMsg env.userMsgId env.now content files
    let messagesWithUser := chat.messages ++ [userMessage]
    let upd0 : StoreUpdate := { chatId := chat.id, messages := messagesWithUser }
    -- try block
    if chat.id = "" then ([], [upd0])  -- `if (!chat || !chat.id) return`
    else
      -- Step 1: ensure the chat exists on the server
      let step1 : Except String (String × List ApiCall × List StoreUpdate) :=
        if strTruthy chat.server_id then
          .ok ((chat.server_id.getD ""), [], [])
        else
          let call := ApiCall.createChat (if chat.title = "" then "Новый чат" else chat.title)
          match env.createResp with
          | .ok sid =>
              .ok (sid, [call],
                [{ chatId := chat.id, messages := messagesWithUser,
                   patch := { server_id := some sid, persisted := some true } }])
          | .error status =>
              .error ("HTTP error! status: " ++ toString status)
      match step1 with
      | .error emsg =>
          -- createChat threw; falls into the same catch as sendMessage failures
          if isSilentAbortError emsg then
            ([ApiCall.createChat (if chat.title = "" then "Новый чат" else chat.title)], [upd0])
          else
            ([ApiCall.createChat (if chat.title = "" then "Новый чат" else chat.title)],
             [upd0, { chatId := chat.id,
                      messages := messagesWithUser ++ [sendErrorMsg env.errMsgId env.now] }])
      | .ok (serverId, calls1, upds1) =>
          -- Step 2: send the message
          let calls := calls1 ++ [ApiCall.sendMessage serverId content]
          match env.sendResp with
          | .ok a =>
              (calls, [upd0] ++ upds1 ++
                [{ chatId := chat.id,
                   messages := messagesWithUser ++ [buildAssistantMsg a] }])
          | .error e =>
              let emsg := mkSendError e
              if isSilentAbortError emsg then (calls, [upd0] ++ upds1)
              else
                (calls, [upd0] ++ upds1 ++
                  [{ chatId := chat.id,
                     messages := messagesWithUser ++ [sendErrorMsg env.errMsgId env.now] }])

/-- Apply the sequence of `onUpdateMessages` invocations to the store (the
`onUpdateMessages` prop is `App.jsx`'s `updateChatMessages`). -/
def applyUpdates (s : Store) (us : List StoreUpdate) : Store :=
  us.foldl (fun acc u => updateChatMessages acc u.chatId u.messages u.patch) s

/-! ### Plan confirmation `handleConfirmPlan` (`ChatWindow.jsx`) -/

/-- Response of `confirmPlan`: `{content, tables?, charts?}` on approval,
`{result}` on cancellation (fields the server omits are `none`). -/
structure ConfirmResp where
  content : Option String := none
  tables : Option (List String) := none
  charts : Option (List String) := none
  result : Option String := none
  deriving DecidableEq, Repr

/-- In-place mutation of the targeted assistant message in `handleConfirmPlan`
(`nm = {...m}` followed by the field overwrites of the taken branch). -/
def applyConfirm (confirm : Bool) (resp : ConfirmResp) (m : Msg) : Msg :=
  if confirm then
    { m with
      content := strOr resp.content m.content
      tables := match resp.tables with
        | some t => t
        | none => m.tables
      charts := match resp.charts with
        | some t => t
        | none => m.charts
      awaiting_confirmation := false
      confirmation_summary := none
      plan_id := none }
  else
    { m with
      content := strOr resp.result "План отменён."
      awaiting_confirmation := false
      confirmation_summary := none
      plan_id := none }

/-- The `chat.messages.map(...)` performed by `handleConfirmPlan` after a
successful `confirmPlan` call. -/
def confirmPlanUpdate (confirm : Bool) (resp : ConfirmResp) (messageId : String)
    (msgs : List Msg) : List Msg :=
  msgs.map fun m => if m.id = messageId then applyConfirm confirm resp m else m

/-- `handleConfirmPlan(messageId, confirm)` of `ChatWindow.jsx`: returns the
new message array passed to `onUpdateMessages`, or `none` when the handler
bails out (no truthy `server_id`, no truthy `plan_id` on the target message,
or the `confirmPlan` call failed — each of those paths only alerts).
`resp` is the outcome of the `confirmPlan` network call. -/
def handleConfirmPlan (chat : Chat) (messageId : String) (confirm : Bool)
    (resp : Except String ConfirmResp) : Option (List Msg) :=
  if !strTruthy chat.server_id then none
  else
    let planId := strOrNull ((chat.messages.find? fun m => m.id == messageId).bind Msg.plan_id)
    match planId with
    | none => none
    | some _ =>
        match resp with
        | .error _ => none
        | .ok r => some (confirmPlanUpdate confirm r messageId chat.messages)

/-! ### Selection and message prefetch (`handleSelectChat` and the
`activeChat` effect's `loadMessages` in `App.jsx`) -/

/-- `targetId = chatObj && chatObj.server_id ? chatObj.server_id : chatId`. -/
def targetIdFor (chatObj : Option Chat) (chatId : String) : String :=
  match chatObj with
  | some c => if strTruthy c.server_id then c.server_id.getD "" else chatId
  | none => chatId

/-- `handleSelectChat(chatId)`: cleanup of empty local chats, then either a
direct activation (transient non-preview chat) or a prefetch of the full
message history.  Returns the resulting store, the new `activeChat`, and the
API calls issued.  `fetch` is the outcome of `getChatMessages`. -/
def handleSelectChat (s : Store) (active : Option String) (chatId : String)
    (fetch : Except String (List Msg)) : Store × Option String × List ApiCall :=
  let cleaned := cleanupEmptyLocalChats active s
  let chatObj := storeLookup chatId s
  match chatObj with
  | some c =>
      if !strTruthy c.server_id && c.preview = false then
        (cleaned, some chatId, [])
      else
        let tid := targetIdFor chatObj chatId
        match fetch with
        | .ok msgs =>
            (updateChatMessages cleaned chatId msgs { preview := some false },
             some chatId, [ApiCall.getChatMessages tid])
        | .error _ => (cleaned, some chatId, [ApiCall.getChatMessages tid])
  | none =>
      let tid := targetIdFor chatObj chatId
      match fetch with
      | .ok msgs =>
          (updateChatMessages cleaned chatId msgs { preview := some false },
           some chatId, [ApiCall.getChatMessages tid])
      | .error _ => (cleaned, some chatId, [ApiCall.getChatMessages tid])

/-- The API calls issued by the `useEffect` on `activeChat` (its `loadMessages`
helper), for a given store and active chat id.  The outer guard runs
`loadMessages` only when the chat exists and is a preview or has no messages;
inside, a transient non-preview chat is skipped before any network call. -/
def activeChatEffectCalls (s : Store) (active : String) : List ApiCall :=
  match storeLookup active s with
  | none => []
  | some c =>
      if c.preview || c.messages.isEmpty then
        if !c.preview && !strTruthy c.server_id then []
        else if c.preview then [ApiCall.getChatMessages active]
        else [ApiCall.getChatMessages (targetIdFor (some c) active)]
      else []

/-! ### Input gating (`ChatWindow.jsx` render and `ChatInput.jsx`) -/

/-- The props of `ChatInput` that govern whether a submission is allowed. -/
structure ChatInputProps where
  isLoading : Bool := false
  isAwaitingConfirmation : Bool := false
  deriving DecidableEq, Repr

/-- The props `ChatWindow` actually passes to `ChatInput` in both render
branches: `isLoading={isLoading}` and *no* `isAwaitingConfirmation` attribute,
so that prop keeps its declared default `false` whatever the chat contains. -/
def chatWindowInputProps (isLoading : Bool) : ChatInputProps :=
  { isLoading := isLoading }

/-- JS `String.prototype.trim` (whitespace stripped from both ends). -/
def jsTrim (s : String) : String :=
  String.mk (((s.data.dropWhile Char.isWhitespace).reverse.dropWhile
    Char.isWhitespace).reverse)

/-- The submission guard in `ChatInput.handleSubmit`:
`(trimmedMessage || files.length > 0) && !isLoading && !isAwaitingConfirmation`. -/
def chatInputCanSubmit (p : ChatInputProps) (message : String)
    (filesCount : Nat) : Bool :=
  (jsTrim message != "" || filesCount > 0) && !p.isLoading && !p.isAwaitingConfirmation

/-- Does some message of the chat carry `awaiting_confirmation === true`? -/
def hasAwaitingConfirmation (c : Chat) : Bool :=
  c.messages.any Msg.awaiting_confirmation

/-- Number of messages with the awaiting-confirmation flag set. -/
def countAwaiting (msgs : List Msg) : Nat :=
  (msgs.filter Msg.awaiting_confirmation).length

/-- The message array stored under `k` (empty when the key is absent). -/
def storeMessages (k : String) (s : Store) : List Msg :=
  (storeLookup k s).elim [] Chat.messages

/-! ### Helper lemmas -/

theorem updateChatMessages_messages_self (s : Store) (chatId : String)
    (msgs : List Msg) (p : ChatPatch) :
    storeMessages chatId (updateChatMessages s chatId msgs p) = msgs := by
  simp [storeMessages, updateChatMessages, storeLookup_storeSet_same]

theorem mergeServerChats_cons (now : Nat) (prev : Store) (c : ServerChat)
    (cs : List ServerChat) :
    mergeServerChats now prev (c :: cs) =
      mergeServerChats now (storeSet c.id (mapServerChat now c) prev) cs := rfl

theorem mergeServerChats_lookup_of_not_mem (now : Nat) (k : String)
    (cs : List ServerChat) (prev : Store) (h : k ∉ cs.map ServerChat.id) :
    storeLookup k (mergeServerChats now prev cs) = storeLookup k prev := by
  induction cs generalizing prev with
  | nil => rfl
  | cons c rest ih =>
      simp only [List.map_cons, List.mem_cons] at h
      push_neg at h
      rw [mergeServerChats_cons, ih _ h.2]
      exact storeLookup_storeSet_ne c.id k _ prev h.1

theorem mergeServerChats_lookup_isSome (now : Nat) (k : String)
    (cs : List ServerChat) (prev : Store)
    (h : (storeLookup k prev).isSome) :
    (storeLookup k (mergeServerChats now prev cs)).isSome := by
  induction cs generalizing prev with
  | nil => exact h
  | cons c rest ih =>
      rw [mergeServerChats_cons]
      refine ih _ ?_
      by_cases hk : c.id = k
      · subst hk; rw [storeLookup_storeSet_same]; rfl
      · rwa [storeLookup_storeSet_ne _ _ _ _ (Ne.symm hk)]

theorem cleanup_keys_subset (active : Option String) (s : Store) (k : String)
    (h : k ∉ s.map Prod.fst) :
    k ∉ (cleanupEmptyLocalChats active s).map Prod.fst := by
  intro hk
  apply h
  simp only [List.mem_map] at hk ⊢
  obtain ⟨kv, hkv, hfst⟩ := hk
  exact ⟨kv, List.mem_of_mem_filter hkv, hfst⟩

/-! ### Claims -/

/-- **C10.** `cleanupEmptyLocalChats` (invoked first by `handleSelectChat`)
removes exactly the sessions that are not persisted, have an empty message
array, and are not the active session; every persisted session, every session
with at least one message, and the active session survive unchanged. -/
theorem c10_cleanup_removes_exactly_empty_inactive_locals
    (active : Option String) (s : Store) (k : String) (c : Chat)
    (hwf : StoreWF s) (hk : storeLookup k s = some c) :
    storeLookup k (cleanupEmptyLocalChats active s) =
      (if c.persisted = false ∧ c.messages = [] ∧ active ≠ some k then none
       else some c) := by
  induction s with
  | nil => simp [storeLookup] at hk
  | cons hd tl ih =>
      obtain ⟨k0, c0⟩ := hd
      have hwfc := hwf
      simp only [StoreWF, List.map_cons, List.nodup_cons] at hwfc
      have hwf' : StoreWF tl := hwfc.2
      by_cases hk0 : k0 = k
      · subst hk0
        simp only [storeLookup, if_true, eq_self_iff_true, Option.some.injEq] at hk
        subst hk
        by_cases hkeep : (c0.persisted || !c0.messages.isEmpty || active == some k0) = true
        · have hcond : ¬(c0.persisted = false ∧ c0.messages = [] ∧ active ≠ some k0) := by
            rintro ⟨h1, h2, h3⟩
            rw [h1, h2] at hkeep
            simp only [List.isEmpty_nil, Bool.not_true, Bool.or_self, Bool.false_or,
              beq_iff_eq] at hkeep
            exact h3 hkeep
          rw [if_neg hcond]
          simp only [cleanupEmptyLocalChats, List.filter_cons]
          rw [if_pos hkeep]
          simp [storeLookup]
        · have hcond : c0.persisted = false ∧ c0.messages = [] ∧ active ≠ some k0 := by
            have hkeep' := hkeep
            simp only [Bool.or_eq_true, not_or, Bool.not_eq_true', beq_iff_eq] at hkeep'
            exact ⟨by simpa using hkeep'.1.1,
              by simpa [List.isEmpty_iff] using hkeep'.1.2, hkeep'.2⟩
          rw [if_pos hcond]
          simp only [cleanupEmptyLocalChats, List.filter_cons]
          rw [if_neg hkeep]
          exact storeLookup_eq_none_of_not_mem _ _
            (cleanup_keys_subset active tl k0 hwfc.1)
      · simp only [storeLookup, if_neg hk0] at hk
        have := ih hwf' hk
        simp only [cleanupEmptyLocalChats, List.filter_cons] at this ⊢
        by_cases hh : (c0.persisted || !c0.messages.isEmpty || active == some k0) = true
        · rw [if_pos hh]; simpa [storeLookup, hk0] using this
        · rw [if_neg hh]; exact this

/-- A transient local chat holding a drafted user message (sample value). -/
def localDraftChat : Chat :=
  { id := "local1", server_id := none, title := "Новый чат",
    messages := [{ id := "d1", role := "user", content := "draft" }] }

/-- An empty, non-persisted local chat (sample value). -/
def wLocalEmpty : Chat := { id := "w1", server_id := none, messages := [] }

/-- Witness for C10 at a concrete input: the non-persisted, empty, non-active
chat `w1` is removed by the cleanup. -/
theorem c10_cleanup_witness :
    storeLookup "w1" (cleanupEmptyLocalChats (some "w2") [("w1", wLocalEmpty)]) =
      (if wLocalEmpty.persisted = false ∧ wLocalEmpty.messages = [] ∧
          (some "w2" : Option String) ≠ some "w1" then none else some wLocalEmpty) :=
  c10_cleanup_removes_exactly_empty_inactive_locals (some "w2")
    [("w1", wLocalEmpty)] "w1" wLocalEmpty (by simp [StoreWF]) rfl

/-- **C6.** `updateChatMessages` recomputes the session title from the first
user message only when the stored entry's `server_id` is null at the time of
the call; a session whose `server_id` is already set (truthy) keeps its
existing title unchanged. -/
theorem c6_title_recomputed_only_while_transient
    (s : Store) (chatId : String) (msgs : List Msg) (p : ChatPatch) (c : Chat)
    (hc : storeLookup chatId s = some c) :
    (strTruthy c.server_id = true →
      ((storeLookup chatId (updateChatMessages s chatId msgs p)).getD
        undefinedChat).title = c.title) ∧
    (c.server_id = none → ∀ m0 rest, msgs = m0 :: rest → m0.role = "user" →
      ((storeLookup chatId (updateChatMessages s chatId msgs p)).getD
        undefinedChat).title = deriveTitle m0.content) := by
  constructor
  · intro ht
    cases msgs with
    | nil => simp [updateChatMessages, hc, storeLookup_storeSet_same]
    | cons m0 rest => simp [updateChatMessages, hc, storeLookup_storeSet_same, ht]
  · intro hnull m0 rest hm hrole
    subst hm
    simp [updateChatMessages, hc, storeLookup_storeSet_same, hnull, strTruthy, hrole]

/-- Witness for C6 at concrete inputs: a persisted chat keeps its title, and a
transient chat's title becomes the derived title of the first user message. -/
theorem c6_title_witness :
    (((storeLookup "p1" (updateChatMessages
        [("p1", { id := "p1", server_id := some "srv", title := "Frozen" })] "p1"
        [{ id := "m1", role := "user", content := "Hello" }] {})).getD
        undefinedChat).title = "Frozen") ∧
    (((storeLookup "local1" (updateChatMessages [("local1", localDraftChat)]
        "local1" [{ id := "m1", role := "user", content := "Hello" }] {})).getD
        undefinedChat).title = deriveTitle "Hello") :=
  ⟨(c6_title_recomputed_only_while_transient
      [("p1", { id := "p1", server_id := some "srv", title := "Frozen" })] "p1"
      [{ id := "m1", role := "user", content := "Hello" }] {}
      { id := "p1", server_id := some "srv", title := "Frozen" } rfl).1 rfl,
   (c6_title_recomputed_only_while_transient [("local1", localDraftChat)] "local1"
      [{ id := "m1", role := "user", content := "Hello" }] {} localDraftChat rfl).2
      rfl { id := "m1", role := "user", content := "Hello" } [] rfl rfl⟩

/-- **C3 (counterexample).** The claim extends to the refresh triggered by a
failed delete, but that refresh (`handleDeleteChat`'s catch branch) replaces
the store wholesale with the mapped server listing: a transient session
(`server_id == null`) present before the refresh is gone afterwards. -/
theorem c3_counterexample_delete_refresh_drops_transient :
    localDraftChat.server_id = none ∧
    storeLookup "local1" [("local1", localDraftChat)] = some localDraftChat ∧
    storeLookup "local1" (deleteRefreshChats 0 []) = none :=
  ⟨rfl, rfl, rfl⟩

/-- **C3 (amended).** The startup/sign-in merge (`loadServerChatsAndEnsureInitial`)
never removes any existing session: every key present before the merge is
still present, and a session whose id is not in the listing (in particular a
transient one, whose client-generated id never appears there) is unchanged.
The refresh after a failed delete does not have this property (see the
counterexample): it replaces the store with the listing. -/
theorem c3_amended_initial_merge_preserves_transient
    (now : Nat) (prev : Store) (cs : List ServerChat) (k : String) (c : Chat)
    (hk : storeLookup k prev = some c) (_htrans : c.server_id = none) :
    (storeLookup k (mergeServerChats now prev cs)).isSome = true ∧
    (k ∉ cs.map ServerChat.id →
      storeLookup k (mergeServerChats now prev cs) = some c) := by
  refine ⟨mergeServerChats_lookup_isSome now k cs prev (by rw [hk]; rfl), ?_⟩
  intro hnot
  rw [mergeServerChats_lookup_of_not_mem now k cs prev hnot, hk]

/-- Witness for C3 (amended) at a concrete input: the transient draft chat
survives a merge of a one-element server listing. -/
theorem c3_amended_witness :
    (storeLookup "local1" (mergeServerChats 0 [("local1", localDraftChat)]
      [{ id := "sc1", last_message := some "hey" }])).isSome = true ∧
    storeLookup "local1" (mergeServerChats 0 [("local1", localDraftChat)]
      [{ id := "sc1", last_message := some "hey" }]) = some localDraftChat :=
  ⟨(c3_amended_initial_merge_preserves_transient 0 [("local1", localDraftChat)]
      [{ id := "sc1", last_message := some "hey" }] "local1" localDraftChat rfl rfl).1,
   (c3_amended_initial_merge_preserves_transient 0 [("local1", localDraftChat)]
      [{ id := "sc1", last_message := some "hey" }] "local1" localDraftChat rfl rfl).2
      (by decide)⟩

theorem mergeServerChats_lookup_mem (now : Nat) (c : ServerChat) :
    ∀ cs : List ServerChat, (cs.map ServerChat.id).Nodup → c ∈ cs → ∀ prev,
      storeLookup c.id (mergeServerChats now prev cs) =
        some (mapServerChat now c) := by
  intro cs
  induction cs with
  | nil => intro _ h; cases h
  | cons c0 rest ih =>
      intro hnd hmem prev
      simp only [List.map_cons, List.nodup_cons] at hnd
      rcases List.mem_cons.mp hmem with h | h
      · subst h
        rw [mergeServerChats_cons]
        rw [mergeServerChats_lookup_of_not_mem now _ _ _ ?hni]
        · exact storeLookup_storeSet_same _ _ _
        case hni =>
          intro hmemid
          exact hnd.1 hmemid
      · rw [mergeServerChats_cons]
        exact ih hnd.2 h _

/-- **C9.** For every entry of a fetched server listing (distinct ids), the
startup/sign-in merge stores exactly the freshly built entry under that id —
`persisted = true`, `preview` iff the listing carried a last message, and a
message array of at most one synthetic preview entry — overwriting whatever
the store previously held under that id (the result does not depend on the
previous entry, so a full history is replaced by the preview entry). -/
theorem c9_merge_overwrites_with_fresh_preview_entry
    (now : Nat) (prev : Store) (cs : List ServerChat) (c : ServerChat)
    (hnd : (cs.map ServerChat.id).Nodup) (hmem : c ∈ cs) :
    storeLookup c.id (mergeServerChats now prev cs) = some (mapServerChat now c) ∧
    (mapServerChat now c).persisted = true ∧
    (mapServerChat now c).preview = strTruthy c.last_message ∧
    (mapServerChat now c).messages.length ≤ 1 := by
  refine ⟨mergeServerChats_lookup_mem now c cs hnd hmem prev, rfl, rfl, ?_⟩
  cases h : c.last_message with
  | none => simp [mapServerChat, h]
  | some lm =>
      by_cases hlm : lm = "" <;> simp [mapServerChat, h, hlm]

/-- A previously stored full history for server chat `sc1` (sample value). -/
def fullHistoryChat : Chat :=
  { id := "sc1", server_id := some "sc1", title := "old", persisted := true,
    messages := [{ id := "q1", role := "user", content := "q" },
                 { id := "a1", role := "assistant", content := "a" }] }

/-- Witness for C9 at a concrete input: merging a listing entry for `sc1` over
a store that holds a full two-message history replaces it with the one-message
preview entry. -/
theorem c9_merge_witness :
    storeLookup "sc1" (mergeServerChats 0 [("sc1", fullHistoryChat)]
      [{ id := "sc1", last_message := some "hey" }]) =
      some (mapServerChat 0 { id := "sc1", last_message := some "hey" }) ∧
    (mapServerChat 0 { id := "sc1", last_message := some "hey" }).persisted = true ∧
    (mapServerChat 0 { id := "sc1", last_message := some "hey" }).preview =
      strTruthy (some "hey") ∧
    (mapServerChat 0 { id := "sc1", last_message := some "hey" }).messages.length ≤ 1 :=
  c9_merge_overwrites_with_fresh_preview_entry 0 [("sc1", fullHistoryChat)]
    [{ id := "sc1", last_message := some "hey" }]
    { id := "sc1", last_message := some "hey" } (by simp) (by simp)

/-- **C8.** A stored session whose `server_id` is null is never queried for
messages: under the data-model invariant that preview sessions have a server
id, neither `handleSelectChat` on it nor the `activeChat` effect issues any
API call (in particular no `getChatMessages`) for it. -/
theorem c8_transient_sessions_never_fetched
    (s : Store) (active : Option String) (chatId : String) (c : Chat)
    (fetch : Except String (List Msg))
    (hc : storeLookup chatId s = some c)
    (hsid : c.server_id = none)
    (hinv : c.preview = true → c.server_id ≠ none) :
    (handleSelectChat s active chatId fetch).2.2 = [] ∧
    activeChatEffectCalls s chatId = [] := by
  have hprev : c.preview = false := by
    cases hp : c.preview
    · rfl
    · exact absurd hsid (hinv hp)
  constructor
  · simp [handleSelectChat, hc, hsid, hprev, strTruthy]
  · simp [activeChatEffectCalls, hc, hsid, hprev, strTruthy]

/-- Witness for C8 at a concrete input: selecting/activating the transient
draft chat issues no API call. -/
theorem c8_transient_witness :
    (handleSelectChat [("local1", localDraftChat)] none "local1"
      (Except.error "unused")).2.2 = [] ∧
    activeChatEffectCalls [("local1", localDraftChat)] "local1" = [] :=
  c8_transient_sessions_never_fetched [("local1", localDraftChat)] none "local1"
    localDraftChat (Except.error "unused") rfl rfl (by intro h; cases h)

/-- An assistant message carrying a pending plan confirmation (sample value). -/
def pendingPlanMsg : Msg :=
  { id := "am", role := "assistant", content := "approve the plan?",
    awaiting_confirmation := true, confirmation_summary := some "2 steps",
    plan_id := some "p1" }

/-- A persisted chat whose last assistant message awaits confirmation. -/
def pendingChat : Chat :=
  { id := "c1", server_id := some "srv1", title := "T",
    messages := [pendingPlanMsg], persisted := true }

/-- **C5 (code bug).** `ChatWindow` renders `ChatInput` without the
`isAwaitingConfirmation` prop, so it keeps its default `false` no matter what
the chat contains: with a pending confirmation in the active session and no
turn in flight, `ChatInput.handleSubmit` still allows a submission.
`ChatInput` itself fully implements the disable (placeholder and tooltip text
for the awaiting state included), so the missing prop contradicts the
component's own design and the specified behaviour. -/
theorem c5_input_not_disabled_during_pending_confirmation :
    hasAwaitingConfirmation pendingChat = true ∧
    (chatWindowInputProps false).isAwaitingConfirmation = false ∧
    chatInputCanSubmit (chatWindowInputProps false) "hello" 0 = true :=
  ⟨rfl, rfl, by decide⟩

/-- **C7.** Resolving a plan confirmation (approve or cancel) mutates only the
targeted assistant message, in place: the output array has the same length,
every message whose id is not the target is unchanged at its position, and the
target keeps its id, role and position while its confirmation fields are
cleared and its content is overwritten from the response payload — on approval
content/tables/charts come from the payload (falling back to the old values
when the payload omits them), on cancellation the content becomes the
cancellation result text and tables/charts are untouched. -/
theorem handleConfirmPlan_eq_some
    (chat : Chat) (messageId : String) (confirm : Bool)
    (resp : Except String ConfirmResp) (out : List Msg)
    (h : handleConfirmPlan chat messageId confirm resp = some out) :
    ∃ r, out = confirmPlanUpdate confirm r messageId chat.messages := by
  simp only [handleConfirmPlan] at h
  split at h
  · cases h
  · split at h
    · cases h
    · split at h
      · cases h
      · exact ⟨_, (Option.some.injEq _ _ ▸ h).symm⟩

theorem applyConfirm_fields (confirm : Bool) (r : ConfirmResp) (m : Msg) :
    (applyConfirm confirm r m).id = m.id ∧
    (applyConfirm confirm r m).role = m.role ∧
    (applyConfirm confirm r m).awaiting_confirmation = false ∧
    (applyConfirm confirm r m).plan_id = none ∧
    (applyConfirm confirm r m).confirmation_summary = none := by
  cases confirm <;> simp [applyConfirm]

theorem applyConfirm_payload (confirm : Bool) (r : ConfirmResp) (m : Msg) :
    (applyConfirm confirm r m).content =
      (if confirm then strOr r.content m.content
       else strOr r.result "План отменён.") ∧
    (applyConfirm confirm r m).tables =
      (if confirm then r.tables.getD m.tables else m.tables) ∧
    (applyConfirm confirm r m).charts =
      (if confirm then r.charts.getD m.charts else m.charts) ∧
    (applyConfirm confirm r m).files = m.files ∧
    (applyConfirm confirm r m).timestamp = m.timestamp := by
  cases confirm <;> cases ht : r.tables <;> cases hc : r.charts <;>
    simp [applyConfirm, ht, hc]

theorem handleConfirmPlan_ok_eq_some
    (chat : Chat) (messageId : String) (confirm : Bool) (r : ConfirmResp)
    (out : List Msg)
    (h : handleConfirmPlan chat messageId confirm (Except.ok r) = some out) :
    out = confirmPlanUpdate confirm r messageId chat.messages := by
  simp only [handleConfirmPlan] at h
  split at h
  · cases h
  · split at h
    · cases h
    · exact ((Option.some.injEq _ _).mp h).symm

theorem c7_confirm_resolution_in_place
    (chat : Chat) (messageId : String) (confirm : Bool)
    (r : ConfirmResp) (out : List Msg)
    (h : handleConfirmPlan chat messageId confirm (Except.ok r) = some out) :
    out.length = chat.messages.length ∧
    (∀ (i : Nat) (m : Msg), chat.messages[i]? = some m → m.id ≠ messageId →
      out[i]? = some m) ∧
    (∀ (i : Nat) (m : Msg), chat.messages[i]? = some m → m.id = messageId →
      ∃ m', out[i]? = some m' ∧ m'.id = m.id ∧ m'.role = m.role ∧
        m'.awaiting_confirmation = false ∧ m'.plan_id = none ∧
        m'.confirmation_summary = none ∧
        m'.content = (if confirm then strOr r.content m.content
          else strOr r.result "План отменён.") ∧
        m'.tables = (if confirm then r.tables.getD m.tables else m.tables) ∧
        m'.charts = (if confirm then r.charts.getD m.charts else m.charts) ∧
        m'.files = m.files ∧ m'.timestamp = m.timestamp) := by
  have hr := handleConfirmPlan_ok_eq_some chat messageId confirm r out h
  subst hr
  refine ⟨List.length_map _ _, ?_, ?_⟩
  · intro i m hm hne
    simp [confirmPlanUpdate, List.getElem?_map, hm, hne]
  · intro i m hm heq
    refine ⟨applyConfirm confirm r m, ?_, ?_⟩
    · simp [confirmPlanUpdate, List.getElem?_map, hm, heq]
    · obtain ⟨h1, h2, h3, h4, h5⟩ := applyConfirm_fields confirm r m
      obtain ⟨h6, h7, h8, h9, h10⟩ := applyConfirm_payload confirm r m
      exact ⟨h1, h2, h3, h4, h5, h6, h7, h8, h9, h10⟩

/-- Witness for C7 at a concrete input: approving the pending plan on
`pendingChat` resolves in place and preserves the array length. -/
theorem c7_confirm_witness :
    handleConfirmPlan pendingChat "am" true (Except.ok { content := some "done" }) =
      some (confirmPlanUpdate true { content := some "done" } "am"
        pendingChat.messages) ∧
    (confirmPlanUpdate true { content := some "done" } "am"
      pendingChat.messages).length = pendingChat.messages.length :=
  ⟨rfl, (c7_confirm_resolution_in_place pendingChat "am" true
    { content := some "done" }
    (confirmPlanUpdate true { content := some "done" } "am" pendingChat.messages)
    rfl).1⟩

/-! Counting lemmas for the awaiting-confirmation flag -/

theorem countAwaiting_append (l1 l2 : List Msg) :
    countAwaiting (l1 ++ l2) = countAwaiting l1 + countAwaiting l2 := by
  simp [countAwaiting, List.filter_append]

theorem countAwaiting_single (m : Msg) :
    countAwaiting [m] = if m.awaiting_confirmation then 1 else 0 := by
  by_cases h : m.awaiting_confirmation <;> simp [countAwaiting, List.filter_cons, h]

theorem countAwaiting_optimistic (i : String) (n : Nat) (c : String)
    (fs : List FileMeta) : countAwaiting [optimisticUserMsg i n c fs] = 0 := rfl

theorem countAwaiting_sendError (i : String) (n : Nat) :
    countAwaiting [sendErrorMsg i n] = 0 := rfl

theorem countAwaiting_assistant_le (a : AssistantData) :
    countAwaiting [buildAssistantMsg a] ≤ 1 := by
  rw [countAwaiting_single]
  split <;> simp

/-- The first turn of the C4 scenario starts from a fresh transient chat. -/
def c4chat0 : Chat := { id := "c4", server_id := none, title := "" }

/-- Environment of the first turn: the server replies with an assistant
message that awaits confirmation. -/
def c4env1 : SendEnv :=
  { createResp := .ok "srv4",
    sendResp := .ok { id := "a1", role := "assistant", content := "plan?",
                      awaiting_confirmation := some true, plan_id := some "p1" },
    userMsgId := "u1", errMsgId := "e1" }

/-- Store after the first turn. -/
def c4store1 : Store :=
  applyUpdates [("c4", c4chat0)] (handleSendMessage false c4chat0 "hi" [] c4env1).2

/-- The chat after the first turn: one message awaits confirmation. -/
def c4chat1 : Chat := (storeLookup "c4" c4store1).getD undefinedChat

/-- Environment of the second turn, sent while the first confirmation is still
pending (the input is not disabled, see the C5 analysis): the server again
replies with a pending confirmation. -/
def c4env2 : SendEnv :=
  { createResp := .ok "unused",
    sendResp := .ok { id := "a2", role := "assistant", content := "plan2?",
                      awaiting_confirmation := some true, plan_id := some "p2" },
    userMsgId := "u2", errMsgId := "e2" }

/-- Store after the second turn. -/
def c4store2 : Store :=
  applyUpdates c4store1 (handleSendMessage false c4chat1 "again" [] c4env2).2

/-- **C4 (counterexample).** The at-most-one-pending invariant is not enforced
by the code: starting from a reachable state with one pending confirmation
(itself produced by a normal turn), a second `handleSendMessage` — which the
UI permits, since the input is not disabled while a confirmation is pending —
yields a session with two messages whose awaiting flag is true. -/
theorem c4_counterexample_two_pending_confirmations :
    countAwaiting c4chat1.messages = 1 ∧
    countAwaiting (storeMessages "c4" c4store2) = 2 := by decide

/-- Every message array written during one `handleSendMessage` turn is the
optimistically extended array, possibly followed by one assistant message or
one synthetic error message. -/
theorem handleSendMessage_update_messages
    (chat : Chat) (content : String) (files : List FileMeta) (env : SendEnv) :
    ∀ u ∈ (handleSendMessage false chat content files env).2,
      u.messages = chat.messages ++
          [optimisticUserMsg env.userMsgId env.now content files] ∨
      (∃ a, u.messages = chat.messages ++
          [optimisticUserMsg env.userMsgId env.now content files] ++
          [buildAssistantMsg a]) ∨
      u.messages = chat.messages ++
          [optimisticUserMsg env.userMsgId env.now content files] ++
          [sendErrorMsg env.errMsgId env.now] := by
  intro u hu
  simp only [handleSendMessage, Bool.false_eq_true, if_false] at hu
  by_cases hid : chat.id = ""
  · rw [if_pos hid] at hu
    simp only [List.mem_singleton] at hu
    subst hu
    left; rfl
  · rw [if_neg hid] at hu
    by_cases hsrv : strTruthy chat.server_id = true
    · rw [if_pos hsrv] at hu
      dsimp only [] at hu
      cases hsend : env.sendResp with
      | ok a =>
          rw [hsend] at hu
          dsimp only [] at hu
          simp only [List.nil_append, List.singleton_append, List.mem_cons,
            List.not_mem_nil, or_false] at hu
          rcases hu with hu | hu <;> subst hu
          · left; rfl
          · right; left; exact ⟨a, rfl⟩
      | error e =>
          rw [hsend] at hu
          dsimp only [] at hu
          by_cases hsil : isSilentAbortError (mkSendError e) = true
          · rw [if_pos hsil] at hu
            simp only [List.append_nil, List.mem_singleton] at hu
            subst hu
            left; rfl
          · rw [if_neg hsil] at hu
            simp only [List.nil_append, List.singleton_append, List.mem_cons,
              List.not_mem_nil, or_false] at hu
            rcases hu with hu | hu <;> subst hu
            · left; rfl
            · right; right; rfl
    · rw [if_neg hsrv] at hu
      cases hcr : env.createResp with
      | ok sid =>
          rw [hcr] at hu
          dsimp only [] at hu
          cases hsend : env.sendResp with
          | ok a =>
              rw [hsend] at hu
              dsimp only [] at hu
              simp only [List.singleton_append, List.cons_append, List.nil_append,
                List.mem_cons, List.not_mem_nil, or_false] at hu
              rcases hu with hu | hu | hu <;> subst hu
              · left; rfl
              · left; rfl
              · right; left; exact ⟨a, rfl⟩
          | error e =>
              rw [hsend] at hu
              dsimp only [] at hu
              by_cases hsil : isSilentAbortError (mkSendError e) = true
              · rw [if_pos hsil] at hu
                simp only [List.singleton_append, List.cons_append, List.nil_append,
                  List.append_nil, List.mem_cons, List.not_mem_nil, or_false] at hu
                rcases hu with hu | hu <;> subst hu
                · left; rfl
                · left; rfl
              · rw [if_neg hsil] at hu
                simp only [List.singleton_append, List.cons_append, List.nil_append,
                  List.mem_cons, List.not_mem_nil, or_false] at hu
                rcases hu with hu | hu | hu <;> subst hu
                · left; rfl
                · left; rfl
                · right; right; rfl
      | error st =>
          rw [hcr] at hu
          dsimp only [] at hu
          by_cases hsil :
              isSilentAbortError ("HTTP error! status: " ++ toString st) = true
          · rw [if_pos hsil] at hu
            simp only [List.mem_singleton] at hu
            subst hu
            left; rfl
          · rw [if_neg hsil] at hu
            simp only [List.mem_cons, List.not_mem_nil, or_false] at hu
            rcases hu with hu | hu <;> subst hu
            · left; rfl
            · right; right; rfl

/-- **C4 (amended).** A single turn started from a session with no pending
confirmation leaves at most one message with the awaiting flag in every state
it writes, and resolving a confirmation always clears the flag and nulls the
plan id on the resolved message; but the code does not enforce the global
at-most-one invariant across turns (see the counterexample). -/
theorem c4_amended_turn_adds_at_most_one_pending
    (chat : Chat) (content : String) (files : List FileMeta) (env : SendEnv)
    (hzero : countAwaiting chat.messages = 0) :
    (∀ u ∈ (handleSendMessage false chat content files env).2,
        countAwaiting u.messages ≤ 1) ∧
    (∀ (messageId : String) (confirm : Bool) (resp : Except String ConfirmResp)
        (out : List Msg),
      handleConfirmPlan chat messageId confirm resp = some out →
      ∀ (i : Nat) (m : Msg), chat.messages[i]? = some m → m.id = messageId →
        ∃ m', out[i]? = some m' ∧ m'.awaiting_confirmation = false ∧
          m'.plan_id = none) := by
  constructor
  · intro u hu
    rcases handleSendMessage_update_messages chat content files env u hu with
      hmsg | ⟨a, hmsg⟩ | hmsg <;> rw [hmsg]
    · rw [countAwaiting_append, hzero, countAwaiting_optimistic]
      norm_num
    · rw [countAwaiting_append, countAwaiting_append, hzero,
        countAwaiting_optimistic]
      simpa using countAwaiting_assistant_le a
    · rw [countAwaiting_append, countAwaiting_append, hzero,
        countAwaiting_optimistic, countAwaiting_sendError]
      norm_num
  · intro messageId confirm resp out h i m hm heq
    obtain ⟨r, hr⟩ := handleConfirmPlan_eq_some chat messageId confirm resp out h
    subst hr
    refine ⟨applyConfirm confirm r m, ?_, ?_, ?_⟩
    · simp [confirmPlanUpdate, List.getElem?_map, hm, heq]
    · exact (applyConfirm_fields confirm r m).2.2.1
    · exact (applyConfirm_fields confirm r m).2.2.2.1

/-- Witness for C4 (amended) at a concrete input: the first store update of a
turn on a fresh chat holds no pending confirmation. -/
theorem c4_amended_witness :
    countAwaiting c4chat0.messages = 0 ∧
    countAwaiting (StoreUpdate.mk "c4"
      (c4chat0.messages ++ [optimisticUserMsg "u1" 0 "hi" []]) {}).messages ≤ 1 :=
  ⟨rfl, (c4_amended_turn_adds_at_most_one_pending c4chat0 "hi" [] c4env1 rfl).1
    (StoreUpdate.mk "c4"
      (c4chat0.messages ++ [optimisticUserMsg "u1" 0 "hi" []]) {}) (by decide)⟩

/-! Infix helpers for the error-text reasoning of C2 -/

theorem strIncludes_of_infix {hay needle : String}
    (h : needle.data <:+: hay.data) : strIncludes hay needle = true :=
  decide_eq_true h

theorem infix_append_right {l1 l2 : List Char} (l3 : List Char)
    (h : l1 <:+: l2) : l1 <:+: l2 ++ l3 :=
  h.trans (List.prefix_append l2 l3).isInfix

theorem infix_append_left {l1 l3 : List Char} (l2 : List Char)
    (h : l1 <:+: l3) : l1 <:+: l2 ++ l3 :=
  h.trans (List.suffix_append l2 l3).isInfix

/-- The session-deleted marker case (`404` + marker body) always yields an
error text that the catch filter of `handleSendMessage` silences. -/
theorem isChatDeletedError_always_silenced (e : HttpFailure)
    (h : isChatDeletedError e.status e.body = true) :
    isSilentAbortError (mkSendError e) = true := by
  have hparts := (Bool.and_eq_true _ _).mp h
  have h404 : e.status = 404 := by simpa using hparts.1
  cases hp : e.parsed with
  | some j =>
      have : mkSendError e = "ChatDeletedError: " ++ j.detail.getD "undefined" := by
        simp [mkSendError, hp, h]
      rw [this]
      have hinf : "ChatDeletedError".data <:+:
          ("ChatDeletedError: " ++ j.detail.getD "undefined").data := by
        rw [String.data_append]
        exact infix_append_right _ ((by decide :
          ("ChatDeletedError".data <+: "ChatDeletedError: ".data)).isInfix)
      simp [isSilentAbortError, strIncludes_of_infix hinf]
  | none =>
      have ht : toString (404 : Nat) = "404" := rfl
      have hmk : mkSendError e = "HTTP error! status: 404 body: " ++ e.body := by
        simp [mkSendError, hp, h404, ht]
      rw [hmk]
      have hinf : "404".data <:+:
          ("HTTP error! status: 404 body: " ++ e.body).data := by
        rw [String.data_append]
        exact infix_append_right _ (by decide)
      simp [isSilentAbortError, strIncludes_of_infix hinf]

/-- A persisted chat with no messages yet (sample value for C2). -/
def c2chat : Chat :=
  { id := "c2", server_id := some "srv2", title := "T", persisted := true,
    messages := [] }

/-- Environment for C2: `sendMessage` fails with a plain 404 whose body is not
JSON and does not carry the deleted-during-processing marker. -/
def c2env404 : SendEnv :=
  { createResp := .ok "unused",
    sendResp := .error { status := 404, body := "Not Found", parsed := none } }

/-- **C2 (counterexample).** A plain 404 (body `Not Found`, no JSON, no
deleted-during-processing marker) is not the session-deleted case, yet the
turn controller appends no error message: the thrown text
`HTTP error! status: 404 body: Not Found` contains `404`, so the catch
silences it — refuting the claimed if-and-only-if. -/
theorem c2_counterexample_plain_404_swallowed :
    isChatDeletedError 404 "Not Found" = false ∧
    isSilentAbortError
      (mkSendError { status := 404, body := "Not Found", parsed := none }) = true ∧
    (handleSendMessage false c2chat "hi" [] c2env404).2 =
      [{ chatId := "c2", messages := [optimisticUserMsg "u" 0 "hi" []] }] := by
  refine ⟨by decide, by decide, ?_⟩
  decide

/-- **C2 (amended).** On a `sendMessage` failure for a persisted chat, the
synthetic assistant error message is appended iff the thrown error text
contains none of `ChatDeletedError`, `Chat was deleted`, `404`; the
session-deleted case (status 404 with the deleted-during-processing marker in
the body) always yields such a text and is silently dropped, but so is any
other failure whose error text happens to contain `404` — e.g. any 404 whose
body does not parse as JSON. -/
theorem c2_amended_silent_abort_iff_error_text_matches
    (chat : Chat) (content : String) (files : List FileMeta) (env : SendEnv)
    (e : HttpFailure) (sid : String)
    (hid : chat.id ≠ "") (hsid : chat.server_id = some sid) (hs : sid ≠ "")
    (herr : env.sendResp = .error e) :
    (handleSendMessage false chat content files env).1 =
      [ApiCall.sendMessage sid content] ∧
    (handleSendMessage false chat content files env).2 =
      (if isSilentAbortError (mkSendError e) = true then
        [{ chatId := chat.id, messages := chat.messages ++
            [optimisticUserMsg env.userMsgId env.now content files] }]
      else
        [{ chatId := chat.id, messages := chat.messages ++
            [optimisticUserMsg env.userMsgId env.now content files] },
         { chatId := chat.id, messages := chat.messages ++
            [optimisticUserMsg env.userMsgId env.now content files] ++
            [sendErrorMsg env.errMsgId env.now] }]) ∧
    (isChatDeletedError e.status e.body = true →
      isSilentAbortError (mkSendError e) = true) := by
  have hsrv : strTruthy chat.server_id = true := by
    rw [hsid]; simpa [strTruthy] using hs
  have hgetD : chat.server_id.getD "" = sid := by rw [hsid]; rfl
  refine ⟨?_, ?_, isChatDeletedError_always_silenced e⟩
  · simp only [handleSendMessage, Bool.false_eq_true, if_false, if_neg hid,
      hsrv, if_true, herr]
    split <;> simp [hgetD]
  · simp only [handleSendMessage, Bool.false_eq_true, if_false, if_neg hid,
      hsrv, if_true, herr]
    split <;> simp_all

/-- Witness for C2 (amended) at a concrete input: the plain-404 environment. -/
theorem c2_amended_witness :
    (handleSendMessage false c2chat "hi" [] c2env404).1 =
      [ApiCall.sendMessage "srv2" "hi"] ∧
    (handleSendMessage false c2chat "hi" [] c2env404).2 =
      (if isSilentAbortError
          (mkSendError { status := 404, body := "Not Found", parsed := none }) = true
       then
        [{ chatId := c2chat.id, messages := c2chat.messages ++
            [optimisticUserMsg "u" 0 "hi" []] }]
       else
        [{ chatId := c2chat.id, messages := c2chat.messages ++
            [optimisticUserMsg "u" 0 "hi" []] },
         { chatId := c2chat.id, messages := c2chat.messages ++
            [optimisticUserMsg "u" 0 "hi" []] ++ [sendErrorMsg "e" 0] }]) :=
  ⟨(c2_amended_silent_abort_iff_error_text_matches c2chat "hi" [] c2env404
      { status := 404, body := "Not Found", parsed := none } "srv2"
      (by decide) rfl (by decide) rfl).1,
   (c2_amended_silent_abort_iff_error_text_matches c2chat "hi" [] c2env404
      { status := 404, body := "Not Found", parsed := none } "srv2"
      (by decide) rfl (by decide) rfl).2.1⟩

/-- **C1.** Sending on a transient session (`server_id == null`): the turn
controller issues exactly one `createChat` followed by exactly one
`sendMessage`, in that order and nothing else, and the optimistic user
message appended before any network call is present in the session's final
message array however the turn ends (assistant reply, silenced failure, or
appended error message) — the persistence patch is applied to the freshly
appended array, not a re-read of stale state. -/
theorem c1_transient_send_create_then_send_keeps_optimistic
    (s : Store) (chat : Chat) (content : String) (files : List FileMeta)
    (env : SendEnv) (sid : String)
    (hid : chat.id ≠ "") (htrans : chat.server_id = none)
    (hcr : env.createResp = .ok sid) :
    (handleSendMessage false chat content files env).1 =
      [ApiCall.createChat (if chat.title = "" then "Новый чат" else chat.title),
       ApiCall.sendMessage sid content] ∧
    optimisticUserMsg env.userMsgId env.now content files ∈
      storeMessages chat.id
        (applyUpdates s (handleSendMessage false chat content files env).2) := by
  have hsrv : strTruthy chat.server_id = false := by rw [htrans]; rfl
  have hself : ∀ (s' : Store) (msgs : List Msg) (p : ChatPatch),
      storeMessages chat.id (updateChatMessages s' chat.id msgs p) = msgs :=
    fun s' msgs p => updateChatMessages_messages_self s' chat.id msgs p
  simp only [handleSendMessage, Bool.false_eq_true, if_false, if_neg hid,
    hsrv, if_false, hcr]
  cases hsend : env.sendResp with
  | ok a =>
      refine ⟨rfl, ?_⟩
      simp [applyUpdates, hself]
  | error e =>
      dsimp only []
      by_cases hsil : isSilentAbortError (mkSendError e) = true
      · rw [if_pos hsil]
        refine ⟨rfl, ?_⟩
        simp [applyUpdates, hself]
      · rw [if_neg hsil]
        refine ⟨rfl, ?_⟩
        simp [applyUpdates, hself]

/-- Witness for C1 at a concrete input: the first C4 scenario turn (fresh
transient chat, successful creation and send). -/
theorem c1_transient_send_witness :
    (handleSendMessage false c4chat0 "hi" [] c4env1).1 =
      [ApiCall.createChat "Новый чат", ApiCall.sendMessage "srv4" "hi"] ∧
    optimisticUserMsg "u1" 0 "hi" [] ∈
      storeMessages "c4" (applyUpdates [("c4", c4chat0)]
        (handleSendMessage false c4chat0 "hi" [] c4env1).2) :=
  c1_transient_send_create_then_send_keeps_optimistic [("c4", c4chat0)] c4chat0
    "hi" [] c4env1 "srv4" (by decide) rfl rfl

end ChatApp
